import Mathlib

/-!
Verification development for the WP-Featured-Image-AI front end.

The TypeScript sources are shallowly embedded:
* `src/services/geminiService.ts` — retry/backoff (`retryOperation`), per-attempt
  response validation (`generateSingleRequest`), the 4-way fan-out reduction
  (`generateOrEditImage`), and suggestion generation (`generateEditSuggestions`).
* `src/utils/imageUtils.ts` and the `ImageEditor` component — the data-URL
  parsing constructors (`fileToImageData`, `getCroppedImg`), the resize fit
  geometry (`resizeImage`), the paint history stack
  (`startPainting`/`onPaintEnd`/`undoPaint`/`redoPaint`), and the
  empty-prompt guard of `handleGenerate`.

Asynchrony is embedded by indexing: an operation that may be re-invoked is a
function from the invocation number to its outcome, and `Promise.allSettled`
over the four fan-out attempts is the list of the four outcomes in submission
(index) order, which is exactly the order `allSettled` reports results in.
Timed back-off suspensions are recorded as a log of the delays waited.
-/

/-- `ImageData` from `types.ts`: an encoded payload, its declared media type,
and the combined data-URL display reference. -/
structure ImageData where
  mimeType : String
  data : String
  url : String
deriving Repr, DecidableEq

/-- A thrown JavaScript error value, as inspected by `retryOperation`:
`error?.status`, `error?.code`, `error?.response?.status` and
`error?.message` (absent fields read as `undefined`, i.e. `none`). -/
structure ErrObj where
  status : Option Nat
  code : Option Nat
  responseStatus : Option Nat
  message : Option String
deriving Repr, DecidableEq

/-- `new Error(msg)`: only the message field is set. -/
def errMsg (m : String) : ErrObj := ⟨none, none, none, some m⟩

/-- Boolean prefix test on character lists (for substring inspection). -/
def listIsPrefix : List Char → List Char → Bool
  | [], _ => true
  | _ :: _, [] => false
  | a :: as, b :: bs => a == b && listIsPrefix as bs

/-- Boolean substring test on character lists. -/
def listHasSub (nee : List Char) : List Char → Bool
  | [] => listIsPrefix nee []
  | c :: rest => listIsPrefix nee (c :: rest) || listHasSub nee rest

/-- `String.prototype.includes`: does `s` contain `sub` as a substring? -/
def strContains (s sub : String) : Bool := listHasSub sub.data s.data

/-- `String.prototype.trim`: strip leading and trailing whitespace.  (Defined
on the character list so that it computes by structural recursion.) -/
def jsTrim (s : String) : String :=
  String.mk (((s.data.dropWhile Char.isWhitespace).reverse.dropWhile
    Char.isWhitespace).reverse)

/-- The quota / rate-limit classification of `retryOperation`
(geminiService.ts lines 12–17). -/
def isQuotaError (e : ErrObj) : Bool :=
  e.status == some 429 ||
  e.code == some 429 ||
  e.responseStatus == some 429 ||
  (match e.message with
   | some m => strContains m "429" || strContains m "RESOURCE_EXHAUSTED" ||
               strContains m "quota"
   | none => false)

/-- The distinguished terminal message thrown after retries are exhausted. -/
def usageLimitMsg : String :=
  "API Usage Limit Exceeded. The system is busy. Please try again in a moment."

/-- `retryOperation` (geminiService.ts lines 8–30).  The operation is embedded
as a map from the invocation number `i` to that invocation's outcome; the
second component of the result logs the back-off delays awaited, in order, so
that the timing of the retries is part of the observable behaviour. -/
def retryOperation {T : Type} (op : Nat → Except ErrObj T) :
    Nat → Nat → Nat → Except ErrObj T × List Nat
  | maxRetries, delay, i =>
    match op i with
    | .ok v => (.ok v, [])
    | .error e =>
      if isQuotaError e then
        -- source: `if (maxRetries > 0) { ... retryOperation(op, maxRetries-1, delay*2) }`
        match maxRetries with
        | m + 1 =>
          let r := retryOperation op m (delay * 2) (i + 1)
          (r.1, delay :: r.2)
        | 0 => (.error (errMsg usageLimitMsg), [])
      else
        (.error e, [])

example :
    retryOperation (fun _ => (.error (errMsg "quota exceeded") : Except ErrObj Nat))
      2 2000 0 = (.error (errMsg usageLimitMsg), [2000, 4000]) := by rfl

example :
    retryOperation (fun _ => (.error (errMsg "boom") : Except ErrObj Nat))
      2 2000 0 = (.error (errMsg "boom"), []) := by rfl

example :
    retryOperation (fun i => if i = 0 then (.error ⟨some 429, none, none, none⟩ : Except ErrObj Nat)
        else .ok 7) 2 2000 0 = (.ok 7, [2000]) := by rfl

/-- `inlineData` on a response part: declared media type (possibly absent)
and base64 payload. -/
structure InlineData where
  mimeType : Option String
  data : String
deriving Repr, DecidableEq

/-- A content part of an upstream candidate (called `Part` in the upstream
SDK; renamed here because Mathlib already declares a `Part`). -/
structure ResponsePart where
  inlineData : Option InlineData
deriving Repr, DecidableEq

/-- `candidate.content` — may be absent, and its `parts` may be absent. -/
structure Content where
  parts : Option (List ResponsePart)
deriving Repr, DecidableEq

structure Candidate where
  content : Option Content
deriving Repr, DecidableEq

/-- An upstream generation response: zero-or-more candidates. -/
structure GenResponse where
  candidates : Option (List Candidate)
deriving Repr, DecidableEq

/-- geminiService.ts lines 62–70: build the returned `ImageData` from the
found inline payload.  `imagePart.inlineData.mimeType || 'image/png'`:
JavaScript `||` also treats the empty string as falsy. -/
def imageFromInline (inline : InlineData) : ImageData :=
  let mimeType :=
    match inline.mimeType with
    | some m => if m = "" then "image/png" else m
    | none => "image/png"
  ⟨mimeType, inline.data, "data:" ++ mimeType ++ ";base64," ++ inline.data⟩

/-- `generateSingleRequest` (geminiService.ts lines 32–71), from the point the
upstream response is in hand; the network call itself is the `response`
argument.  Each `throw new Error(..)` is an `.error (errMsg ..)`. -/
def generateSingleRequest (response : GenResponse) : Except ErrObj ImageData :=
  match response.candidates with
  | none => .error (errMsg "No candidates returned from Gemini.")
  | some [] => .error (errMsg "No candidates returned from Gemini.")
  | some (c0 :: _) =>
    -- `candidates[0].content?.parts`
    match c0.content.bind Content.parts with
    | none => .error (errMsg "No content parts returned.")
    | some [] => .error (errMsg "No content parts returned.")
    | some ps =>
      -- `partsResponse.find(p => p.inlineData)`
      match ps.find? (fun p => p.inlineData.isSome) with
      | none => .error (errMsg "No image data found in response.")
      | some p =>
        match p.inlineData with
        | none => .error (errMsg "No image data found in response.")
        | some inline => .ok (imageFromInline inline)

/-- `generateOrEditImage` (geminiService.ts lines 73–146).  The prompt/parts
assembly (lines 83–128) only fixes the identical request payload of the four
attempts and is abstracted into `ops`: `ops a i` is the upstream outcome of
invocation `i` (first call or retry) of fan-out attempt `a`.  The list built
by `Promise.allSettled` holds the four terminal outcomes in submission (index)
order regardless of completion times, which is how `allSettled` behaves. -/
def generateOrEditImage (hasApiKey : Bool)
    (ops : Nat → Nat → Except ErrObj ImageData) : Except ErrObj (List ImageData) :=
  if !hasApiKey then
    .error (errMsg "API Key is missing in environment variables.")
  else
    let results := (List.range 4).map (fun a => (retryOperation (ops a) 2 2000 0).1)
    let successfulImages := results.filterMap Except.toOption
    if successfulImages.length = 0 then
      match results.find? (fun r => match r with | .error _ => true | .ok _ => false) with
      | some (.error e) => .error e
      | _ => .error (errMsg "Generation failed.")
    else
      .ok successfulImages

/-- The fixed static suggestion list returned when no source image is
supplied (geminiService.ts lines 153–161). -/
def staticSuggestions : List String :=
  ["Future of AI in business",
   "Modern minimalist home office workspace",
   "Sustainable energy and green technology",
   "Cryptocurrency and global finance trends",
   "Healthy lifestyle and wellness for professionals"]

/-- Outcome of the upstream suggestion call: it threw, returned no text
(`response.text` undefined), or returned text. -/
inductive SuggestionResponse where
  | thrown
  | noText
  | text (t : String)
deriving Repr, DecidableEq

/-- Outcome of `JSON.parse` on the cleaned text, as the caller observes it:
it threw, produced a non-array value, or produced an array. -/
inductive JsonParseOutcome where
  | thrown
  | nonArray
  | array (xs : List String)

/-- `text.replace(/```json|```/g, '')`: a left-to-right scan that at each
position first tries to consume a whole "```json", then a bare "```". -/
def stripFenceMarkers : List Char → List Char
  | [] => []
  | c :: rest =>
    if listIsPrefix "```json".data (c :: rest) then
      stripFenceMarkers (rest.drop 6)
    else if listIsPrefix "```".data (c :: rest) then
      stripFenceMarkers (rest.drop 2)
    else
      c :: stripFenceMarkers rest
termination_by l => l.length
decreasing_by
  · simp; omega
  · simp; omega
  · simp

/-- The body of the operation `generateEditSuggestions` passes to
`retryOperation` (geminiService.ts lines 165–200): every failure is caught
internally and becomes an empty list, so the operation always succeeds. -/
def suggestInner (upstream : SuggestionResponse)
    (parse : String → JsonParseOutcome) : List String :=
  match upstream with
  | .thrown => []        -- outer `catch (error) { return [] }`
  | .noText => []        -- `if (!text) return []` (undefined)
  | .text t =>
    if t = "" then []    -- `if (!text) return []` (empty string is falsy)
    else
      let cleanedText := jsTrim (String.mk (stripFenceMarkers t.data))
      match parse cleanedText with
      | .thrown => []    -- inner `catch (e) { return [] }`
      | .nonArray => []  -- `Array.isArray(parsed) ? .. : []`
      | .array parsed => parsed.take 3

/-- `generateEditSuggestions` (geminiService.ts lines 148–201).  The upstream
call and `JSON.parse` are the external parameters `upstream` and `parse`.
The wrapped operation catches every failure internally and returns a list, so
the embedded operation passed to `retryOperation` is always a success. -/
def generateEditSuggestions (hasApiKey : Bool) (originalImage : Option ImageData)
    (upstream : SuggestionResponse) (parse : String → JsonParseOutcome) :
    Except ErrObj (List String) :=
  if !hasApiKey then .ok []
  else
    match originalImage with
    | none => .ok staticSuggestions
    | some _ =>
      (retryOperation
        (fun _ => (.ok (suggestInner upstream parse) : Except ErrObj (List String)))
        1 1000 0).1

/-- One `.` of the JavaScript regexes used on data URLs: any character except
a line terminator. -/
def isDotChar (c : Char) : Bool :=
  c != '\n' && c != '\r' && c.toNat != 0x2028 && c.toNat != 0x2029

/-- Split at the rightmost occurrence of ";base64," that leaves a nonempty
suffix: the greedy `(.+)` of `/^data:(.+);base64,(.+)$/` commits the first
group to the longest prefix that still lets the rest of the pattern match. -/
def splitBase64Marker : List Char → Option (List Char × List Char)
  | [] => none
  | c :: rest =>
    match splitBase64Marker rest with
    | some (pre, suf) => some (c :: pre, suf)
    | none =>
      if listIsPrefix ";base64,".data (c :: rest) && rest.drop 7 != [] then
        some ([], rest.drop 7)
      else none

/-- `str.match(/^data:(.+);base64,(.+)$/)`: the two captured groups when the
pattern matches (`.` does not cross line terminators).  On strings containing
line terminators the real regex may backtrack to an earlier marker occurrence
where this model rejects; the reconstruction property proved below is
insensitive to which occurrence is chosen. -/
def parseDataUrl (s : String) : Option (String × String) :=
  if listIsPrefix "data:".data s.data then
    match splitBase64Marker (s.data.drop 5) with
    | some (pre, suf) =>
      if !pre.isEmpty && pre.all isDotChar && suf.all isDotChar then
        some (String.mk pre, String.mk suf)
      else none
    | none => none
  else none

/-- `fileToImageData` (imageUtils.ts lines 4–19), from the point the
FileReader has produced its result string: a regex match resolves the
`ImageData`, otherwise the promise rejects with 'Invalid format'. -/
def fileToImageData (readerResult : String) : Except String ImageData :=
  match parseDataUrl readerResult with
  | some (m, d) => .ok ⟨m, d, readerResult⟩
  | none => .error "Invalid format"

/-- `getCroppedImg` (imageUtils.ts lines 39–72), from the point the canvas has
produced its data URL (the rasterisation itself is external). -/
def getCroppedImg (canvasDataUrl : String) : Except String ImageData :=
  match parseDataUrl canvasDataUrl with
  | some (m, d) => .ok ⟨m, d, canvasDataUrl⟩
  | none => .error "Canvas failed"

/-- The paint-session history state of `ImageEditor`: the snapshot stack
`paintHistory` and the pointer `historyStep`. -/
structure PaintState where
  paintHistory : List String
  historyStep : Nat
deriving Repr, DecidableEq

/-- The initial (no-session) state: empty history, pointer 0. -/
def emptyPaintState : PaintState := ⟨[], 0⟩

/-- The history seeding of `startPainting` (ImageEditor lines 327–334):
entering paint mode with an empty history seeds it with the base image URL. -/
def startPainting (originalUrl : String) (s : PaintState) : PaintState :=
  if s.paintHistory.length = 0 then ⟨[originalUrl], 0⟩ else s

/-- The stroke commit of `onPaintEnd` (lines 386–394): truncate beyond the
pointer (`slice(0, historyStep + 1)`), append the new snapshot, and point at
the new last entry. -/
def onPaintEnd (s : PaintState) (newUrl : String) : PaintState :=
  let newHistory := s.paintHistory.take (s.historyStep + 1) ++ [newUrl]
  ⟨newHistory, newHistory.length - 1⟩

/-- `undoPaint` (lines 418–422): move the pointer back, no-op at the earliest
entry. -/
def undoPaint (s : PaintState) : PaintState :=
  if 0 < s.historyStep then ⟨s.paintHistory, s.historyStep - 1⟩ else s

/-- `redoPaint` (lines 424–428): move the pointer forward, no-op at the latest
entry.  `historyStep < paintHistory.length - 1` is JavaScript number
arithmetic, so the comparison is taken in `Int`. -/
def redoPaint (s : PaintState) : PaintState :=
  if (s.historyStep : Int) < (s.paintHistory.length : Int) - 1 then
    ⟨s.paintHistory, s.historyStep + 1⟩
  else s

/-- `handleCancelPaint` (lines 411–416) and the clearing done by
`handleSavePaint` (lines 396–409): the session history is destroyed. -/
def clearPaintSession (_s : PaintState) : PaintState := ⟨[], 0⟩

/-- The snapshot currently displayed: `paintHistory[historyStep]`. -/
def currentSnapshot (s : PaintState) : Option String :=
  s.paintHistory[s.historyStep]?

/-- A run of successive stroke commits. -/
def commitStrokes (s : PaintState) (urls : List String) : PaintState :=
  urls.foldl onPaintEnd s

/-- The fit policy of `resizeImage`. -/
inductive FitMode where
  | cover
  | contain
  | stretch
deriving Repr, DecidableEq

/-- The rectangle passed to `ctx.drawImage` by `resizeImage`: the source image
is scaled onto `[offsetX, offsetX + drawWidth] × [offsetY, offsetY +
drawHeight]` of the white-filled `targetWidth × targetHeight` canvas. -/
structure DrawRect where
  offsetX : ℚ
  offsetY : ℚ
  drawWidth : ℚ
  drawHeight : ℚ
deriving Repr, DecidableEq

/-- The draw geometry of `resizeImage` (imageUtils.ts lines 74–131).
JavaScript numbers are embedded as rationals: the arithmetic here is
division and multiplication on image dimensions, exact in `ℚ`. -/
def resizeImage (imgWidth imgHeight targetWidth targetHeight : ℚ)
    (fit : FitMode) : DrawRect :=
  match fit with
  | .stretch => ⟨0, 0, targetWidth, targetHeight⟩
  | .cover =>
    let imgAspect := imgWidth / imgHeight
    let targetAspect := targetWidth / targetHeight
    if imgAspect > targetAspect then
      ⟨(targetWidth - targetHeight * imgAspect) / 2, 0,
       targetHeight * imgAspect, targetHeight⟩
    else
      ⟨0, (targetHeight - targetWidth / imgAspect) / 2,
       targetWidth, targetWidth / imgAspect⟩
  | .contain =>
    let imgAspect := imgWidth / imgHeight
    let targetAspect := targetWidth / targetHeight
    if imgAspect > targetAspect then
      ⟨0, (targetHeight - targetWidth / imgAspect) / 2,
       targetWidth, targetWidth / imgAspect⟩
    else
      ⟨(targetWidth - targetHeight * imgAspect) / 2, 0,
       targetHeight * imgAspect, targetHeight⟩

inductive EditorStatus where
  | IDLE
  | PROCESSING
  | SUCCESS
  | ERROR
deriving Repr, DecidableEq

/-- The slice of editor state that `handleGenerate` touches. -/
structure GenUIState where
  status : EditorStatus
  generatedImages : List ImageData
  selectedImageIndex : Nat
deriving Repr, DecidableEq

/-- `handleGenerate` (ImageEditor lines 430–447): the state after the handler
finishes, paired with whether `generateOrEditImage` was invoked.  `orch` is
the outcome the orchestrator would produce if it were invoked. -/
def handleGenerate (prompt : String) (orch : Except ErrObj (List ImageData))
    (s : GenUIState) : GenUIState × Bool :=
  -- `if (!prompt.trim()) { toast.error(..); return; }`
  if jsTrim prompt = "" then
    (s, false)
  else
    match orch with
    | .ok results =>
      (⟨.SUCCESS, results, 0⟩, true)
    | .error _ =>
      -- status ERROR; generatedImages was reset to [] before the await and
      -- is left there; the selection index is untouched
      (⟨.ERROR, [], s.selectedImageIndex⟩, true)

/-! ## Helper lemmas about `retryOperation` -/

theorem retry_ok {T : Type} {op : Nat → Except ErrObj T} {v : T} {m d i : Nat}
    (h : op i = .ok v) : retryOperation op m d i = (.ok v, []) := by
  cases m <;> simp [retryOperation, h]

theorem retry_nonquota {T : Type} {op : Nat → Except ErrObj T} {e : ErrObj} {m d i : Nat}
    (h : op i = .error e) (hq : isQuotaError e = false) :
    retryOperation op m d i = (.error e, []) := by
  cases m <;> simp [retryOperation, h, hq]

theorem retry_quota_step {T : Type} {op : Nat → Except ErrObj T} {e : ErrObj} {m d i : Nat}
    (h : op i = .error e) (hq : isQuotaError e = true) :
    retryOperation op (m + 1) d i =
      ((retryOperation op m (d * 2) (i + 1)).1,
       d :: (retryOperation op m (d * 2) (i + 1)).2) := by
  simp [retryOperation, h, hq]

theorem retry_quota_exhausted {T : Type} {op : Nat → Except ErrObj T} {e : ErrObj} {d i : Nat}
    (h : op i = .error e) (hq : isQuotaError e = true) :
    retryOperation op 0 d i = (.error (errMsg usageLimitMsg), []) := by
  simp [retryOperation, h, hq]

/-- The geometric back-off schedule: `m` delays starting at `d`, doubling. -/
def geomDelays : Nat → Nat → List Nat
  | 0, _ => []
  | m + 1, d => d :: geomDelays m (d * 2)

theorem retry_delays_prefix {T : Type} (op : Nat → Except ErrObj T) :
    ∀ m d i, (retryOperation op m d i).2 <+: geomDelays m d := by
  intro m
  induction m with
  | zero =>
    intro d i
    cases h : op i with
    | ok v => simp [retry_ok h]
    | error e =>
      cases hq : isQuotaError e with
      | false => simp [retry_nonquota h hq]
      | true => simp [retry_quota_exhausted h hq]
  | succ m ih =>
    intro d i
    cases h : op i with
    | ok v => simp [retry_ok h]
    | error e =>
      cases hq : isQuotaError e with
      | false => simp [retry_nonquota h hq]
      | true =>
        rw [retry_quota_step h hq]
        simp only [geomDelays, List.cons_prefix_cons]
        exact ⟨trivial, ih (d * 2) (i + 1)⟩

/-! ## Claim theorems -/

/-- C2: for every operation wrapped by `retryOperation` (at its default
parameters, 2 retries starting at 2000ms): a failure classified as
rate-limit/quota (status or code 429, or a message containing "429",
"RESOURCE_EXHAUSTED" or "quota") is retried at most 2 additional times — the
delay log is always a prefix of `[2000, 4000]` — with exactly 2000ms before
the first retry and 4000ms before the second, after which the distinguished
"usage limit exceeded" error is thrown; a failure not so classified is never
retried and propagates on its first occurrence, with no delay awaited. -/
theorem retryOperation_retry_policy {T : Type} (op : Nat → Except ErrObj T) :
    (∀ e, op 0 = .error e → isQuotaError e = false →
      retryOperation op 2 2000 0 = (.error e, [])) ∧
    (∀ e0 e1 e2, op 0 = .error e0 → op 1 = .error e1 → op 2 = .error e2 →
      isQuotaError e0 = true → isQuotaError e1 = true → isQuotaError e2 = true →
      retryOperation op 2 2000 0 = (.error (errMsg usageLimitMsg), [2000, 4000])) ∧
    (retryOperation op 2 2000 0).2 <+: [2000, 4000] := by
  refine ⟨?_, ?_, ?_⟩
  · intro e h0 hq
    exact retry_nonquota h0 hq
  · intro e0 e1 e2 h0 h1 h2 q0 q1 q2
    rw [retry_quota_step h0 q0, retry_quota_step h1 q1,
        retry_quota_exhausted h2 q2]
  · have h := retry_delays_prefix op 2 2000 0
    simpa [geomDelays] using h

theorem retryOperation_retry_policy_witness :
    retryOperation (fun _ => (.error (errMsg "boom") : Except ErrObj Nat)) 2 2000 0 =
      (.error (errMsg "boom"), []) ∧
    retryOperation (fun _ => (.error ⟨some 429, none, none, none⟩ : Except ErrObj Nat)) 2 2000 0 =
      (.error (errMsg usageLimitMsg), [2000, 4000]) := by
  constructor
  · exact (retryOperation_retry_policy
      (fun _ => (.error (errMsg "boom") : Except ErrObj Nat))).1
      (errMsg "boom") rfl (by decide)
  · exact (retryOperation_retry_policy
      (fun _ => (.error ⟨some 429, none, none, none⟩ : Except ErrObj Nat))).2.1
      _ _ _ rfl rfl rfl (by decide) (by decide) (by decide)

/-- C8: a response with no candidates, a first candidate with no content
parts, or no part carrying inline image data makes the attempt fail with the
corresponding local validation error; every error produced by
`generateSingleRequest` is not classified as a quota condition, so the
retry wrapper propagates it on the first invocation without any retry or
delay, and it becomes that attempt's failure outcome. -/
theorem generateSingleRequest_validation (resp : GenResponse) :
    ((resp.candidates = none ∨ resp.candidates = some []) →
      generateSingleRequest resp = .error (errMsg "No candidates returned from Gemini.")) ∧
    (∀ c0 cs, resp.candidates = some (c0 :: cs) →
      (c0.content.bind Content.parts = none ∨ c0.content.bind Content.parts = some []) →
      generateSingleRequest resp = .error (errMsg "No content parts returned.")) ∧
    (∀ c0 cs ps, resp.candidates = some (c0 :: cs) →
      c0.content.bind Content.parts = some ps → ps ≠ [] →
      (∀ p ∈ ps, p.inlineData = none) →
      generateSingleRequest resp = .error (errMsg "No image data found in response.")) ∧
    (∀ e, generateSingleRequest resp = .error e →
      isQuotaError e = false ∧
      retryOperation (fun _ => generateSingleRequest resp) 2 2000 0 = (.error e, [])) := by
  refine ⟨?_, ?_, ?_, ?_⟩
  · rintro (hc | hc) <;> simp [generateSingleRequest, hc]
  · intro c0 cs hc hb
    rcases hb with hb | hb <;> simp [generateSingleRequest, hc, hb]
  · intro c0 cs ps hc hb hne hall
    cases ps with
    | nil => exact absurd rfl hne
    | cons p rest =>
      have hf : (p :: rest).find? (fun q => q.inlineData.isSome) = none := by
        rw [List.find?_eq_none]
        intro q hq
        simp [hall q hq]
      simp [generateSingleRequest, hc, hb, hf]
  · intro e he
    have hmem : e = errMsg "No candidates returned from Gemini." ∨
                e = errMsg "No content parts returned." ∨
                e = errMsg "No image data found in response." := by
      unfold generateSingleRequest at he
      repeat' split at he
      all_goals simp_all
    have hq : isQuotaError e = false := by
      rcases hmem with h | h | h <;> subst h <;> decide
    exact ⟨hq, retry_nonquota he hq⟩

theorem generateSingleRequest_validation_witness :
    generateSingleRequest ⟨none⟩ = .error (errMsg "No candidates returned from Gemini.") ∧
    isQuotaError (errMsg "No candidates returned from Gemini.") = false ∧
    retryOperation (fun _ => generateSingleRequest ⟨none⟩) 2 2000 0 =
      (.error (errMsg "No candidates returned from Gemini."), []) := by
  have h1 := (generateSingleRequest_validation ⟨none⟩).1 (Or.inl rfl)
  have h4 := (generateSingleRequest_validation ⟨none⟩).2.2.2 _ h1
  exact ⟨h1, h4.1, h4.2⟩

/-! ## Fan-out reduction -/

/-- The four settled attempt outcomes (`Promise.allSettled(requests)`), in
submission (index) order. -/
def attemptResults (ops : Nat → Nat → Except ErrObj ImageData) :
    List (Except ErrObj ImageData) :=
  (List.range 4).map (fun a => (retryOperation (ops a) 2 2000 0).1)

theorem attemptResults_explicit (ops : Nat → Nat → Except ErrObj ImageData) :
    attemptResults ops =
      [(retryOperation (ops 0) 2 2000 0).1, (retryOperation (ops 1) 2 2000 0).1,
       (retryOperation (ops 2) 2 2000 0).1, (retryOperation (ops 3) 2 2000 0).1] := rfl

theorem generateOrEditImage_unfold (ops : Nat → Nat → Except ErrObj ImageData) :
    generateOrEditImage true ops =
      (if ((attemptResults ops).filterMap Except.toOption).length = 0 then
        match (attemptResults ops).find?
            (fun r => match r with | .error _ => true | .ok _ => false) with
        | some (.error e) => .error e
        | _ => .error (errMsg "Generation failed.")
      else .ok ((attemptResults ops).filterMap Except.toOption)) := rfl

theorem length_filterMap_eq {α β : Type} (f : α → Option β) :
    ∀ l : List α, (l.filterMap f).length = l.countP (fun a => (f a).isSome) := by
  intro l
  induction l with
  | nil => rfl
  | cons a t ih =>
    cases h : f a <;>
      simp [List.filterMap_cons, List.countP_cons, h, ih]

/-- C1: the fan-out issues exactly 4 independent attempts (the settled-results
list always has length 4); whenever `generateOrEditImage` returns a result
list, that list consists of exactly the successful attempts' images in
submission (index) order, so its length is the number `k` of successful
attempts; and whenever at least one attempt succeeds, a result list is
returned.  Completion order does not exist in the model: `Promise.allSettled`
reports outcomes by submission index. -/
theorem generateOrEditImage_fanout (ops : Nat → Nat → Except ErrObj ImageData) :
    (attemptResults ops).length = 4 ∧
    (∀ imgs, generateOrEditImage true ops = .ok imgs →
      imgs = (attemptResults ops).filterMap Except.toOption ∧
      imgs.length = (attemptResults ops).countP (fun r => r.toOption.isSome)) ∧
    ((attemptResults ops).countP (fun r => r.toOption.isSome) ≠ 0 →
      ∃ imgs, generateOrEditImage true ops = .ok imgs) := by
  have hlen := length_filterMap_eq (Except.toOption (ε := ErrObj) (α := ImageData))
    (attemptResults ops)
  refine ⟨by simp [attemptResults], ?_, ?_⟩
  · intro imgs hok
    rw [generateOrEditImage_unfold] at hok
    split at hok
    · split at hok <;> exact absurd hok (by simp)
    · cases hok
      exact ⟨rfl, hlen⟩
  · intro hk
    rw [generateOrEditImage_unfold]
    split
    · rename_i h
      exact absurd (by omega) hk
    · exact ⟨_, rfl⟩

theorem generateOrEditImage_fanout_witness :
    ∃ imgs, generateOrEditImage true (fun a _ =>
      if a == 0 || a == 2 then
        .ok ⟨"image/png", "QUFBQQ==", "data:image/png;base64,QUFBQQ=="⟩
      else .error (errMsg "boom")) = .ok imgs := by
  apply (generateOrEditImage_fanout _).2.2
  decide

theorem exists_ok_of_some_success (ops : Nat → Nat → Except ErrObj ImageData)
    (hk : (attemptResults ops).countP (fun r => r.toOption.isSome) ≠ 0) :
    ∃ imgs, generateOrEditImage true ops = .ok imgs := by
  have hlen := length_filterMap_eq (Except.toOption (ε := ErrObj) (α := ImageData))
    (attemptResults ops)
  rw [generateOrEditImage_unfold]
  split
  · rename_i h
    exact absurd (by omega) hk
  · exact ⟨_, rfl⟩

/-- C3: if all 4 attempts terminally fail, `generateOrEditImage` surfaces the
failure reason of the attempt with index 0 — the first entry of the
submission-ordered settled list, not of whichever attempt happened to fail
last in time (completion times are absent from `Promise.allSettled`'s
submission-indexed result); if at least one attempt succeeded, the call
returns a result list and no error is surfaced. -/
theorem generateOrEditImage_first_failure (ops : Nat → Nat → Except ErrObj ImageData) :
    (∀ e0 e1 e2 e3,
      (retryOperation (ops 0) 2 2000 0).1 = .error e0 →
      (retryOperation (ops 1) 2 2000 0).1 = .error e1 →
      (retryOperation (ops 2) 2 2000 0).1 = .error e2 →
      (retryOperation (ops 3) 2 2000 0).1 = .error e3 →
      generateOrEditImage true ops = .error e0) ∧
    (∀ a v, a < 4 → (retryOperation (ops a) 2 2000 0).1 = .ok v →
      ∃ imgs, generateOrEditImage true ops = .ok imgs) := by
  constructor
  · intro e0 e1 e2 e3 h0 h1 h2 h3
    rw [generateOrEditImage_unfold, attemptResults_explicit, h0, h1, h2, h3]
    simp [Except.toOption, List.find?]
  · intro a v ha hv
    apply exists_ok_of_some_success
    have hmem : (Except.ok v : Except ErrObj ImageData) ∈ attemptResults ops := by
      rw [attemptResults_explicit]
      interval_cases a <;> exact hv ▸ (by simp)
    have hpos : 0 < (attemptResults ops).countP (fun r => r.toOption.isSome) := by
      rw [List.countP_pos_iff]
      exact ⟨.ok v, hmem, by simp [Except.toOption]⟩
    omega

theorem generateOrEditImage_first_failure_witness :
    generateOrEditImage true (fun a _ =>
      .error (errMsg (if a == 0 then "first failure" else "later failure"))) =
      .error (errMsg "first failure") := by
  apply (generateOrEditImage_first_failure _).1 <;> rfl

/-- C9: a prompt whose value is empty or whitespace-only makes
`handleGenerate` return before doing anything: the orchestrator is not
invoked (second component `false`) and the generation state is unchanged,
for every outcome the orchestrator would have produced. -/
theorem handleGenerate_empty_prompt (prompt : String)
    (orch : Except ErrObj (List ImageData)) (s : GenUIState)
    (h : jsTrim prompt = "") :
    handleGenerate prompt orch s = (s, false) := by
  simp [handleGenerate, h]

theorem handleGenerate_empty_prompt_witness :
    handleGenerate "  " (.ok []) ⟨.IDLE, [], 0⟩ = (⟨.IDLE, [], 0⟩, false) :=
  handleGenerate_empty_prompt "  " (.ok []) ⟨.IDLE, [], 0⟩ (by decide)

theorem retry_const_ok {T : Type} (v : T) (m d i : Nat) :
    retryOperation (fun _ => (.ok v : Except ErrObj T)) m d i = (.ok v, []) :=
  retry_ok rfl

theorem generateEditSuggestions_some (img : ImageData)
    (upstream : SuggestionResponse) (parse : String → JsonParseOutcome) :
    generateEditSuggestions true (some img) upstream parse =
      .ok (suggestInner upstream parse) := by
  simp [generateEditSuggestions, retry_const_ok]

theorem suggestInner_length_le (upstream : SuggestionResponse)
    (parse : String → JsonParseOutcome) :
    (suggestInner upstream parse).length ≤ 3 := by
  cases upstream with
  | thrown => simp [suggestInner]
  | noText => simp [suggestInner]
  | text t =>
    by_cases ht : t = ""
    · simp [suggestInner, ht]
    · simp only [suggestInner, ht, if_false]
      cases parse (jsTrim (String.mk (stripFenceMarkers t.data))) with
      | thrown => simp
      | nonArray => simp
      | array parsed => simp [min_le_left]

/-- C7: `generateEditSuggestions` (with the API key configured) never throws
to its caller — its outcome is always a success value.  With no source image
it returns the fixed static list of 5 generic suggestions, independently of
the upstream call and the parser (no upstream result is consulted); with a
source image it returns at most 3 strings — those parsed from the
code-fence-stripped upstream text — and on an upstream error, an
absent/empty response text, a JSON parse failure, or a non-array parse it
returns the empty list instead of propagating an error. -/
theorem generateEditSuggestions_never_fails (originalImage : Option ImageData)
    (upstream : SuggestionResponse) (parse : String → JsonParseOutcome) :
    (∃ xs, generateEditSuggestions true originalImage upstream parse = .ok xs) ∧
    (originalImage = none →
      generateEditSuggestions true originalImage upstream parse = .ok staticSuggestions ∧
      staticSuggestions.length = 5 ∧
      (∀ up2 parse2, generateEditSuggestions true none up2 parse2 =
        generateEditSuggestions true none upstream parse)) ∧
    (∀ img, originalImage = some img →
      ∀ xs, generateEditSuggestions true originalImage upstream parse = .ok xs →
        xs.length ≤ 3) ∧
    (∀ img, originalImage = some img →
      (upstream = .thrown ∨ upstream = .noText ∨ upstream = .text "" ∨
       (∃ t, upstream = .text t ∧
          parse (jsTrim (String.mk (stripFenceMarkers t.data))) = .thrown) ∨
       (∃ t, upstream = .text t ∧
          parse (jsTrim (String.mk (stripFenceMarkers t.data))) = .nonArray)) →
      generateEditSuggestions true originalImage upstream parse = .ok []) := by
  refine ⟨?_, ?_, ?_, ?_⟩
  · cases originalImage with
    | none => exact ⟨staticSuggestions, rfl⟩
    | some img => exact ⟨suggestInner upstream parse, generateEditSuggestions_some img upstream parse⟩
  · intro h
    subst h
    exact ⟨rfl, rfl, fun up2 parse2 => rfl⟩
  · intro img h xs hxs
    subst h
    rw [generateEditSuggestions_some] at hxs
    cases hxs
    exact suggestInner_length_le upstream parse
  · intro img h hcase
    subst h
    rw [generateEditSuggestions_some]
    rcases hcase with h1 | h1 | h1 | ⟨t, ht, hp⟩ | ⟨t, ht, hp⟩
    · subst h1; rfl
    · subst h1; rfl
    · subst h1; rfl
    · subst ht
      by_cases h0 : t = ""
      · simp [suggestInner, h0]
      · simp [suggestInner, h0, hp]
    · subst ht
      by_cases h0 : t = ""
      · simp [suggestInner, h0]
      · simp [suggestInner, h0, hp]

theorem generateEditSuggestions_never_fails_witness :
    generateEditSuggestions true none .thrown (fun _ => .thrown) = .ok staticSuggestions ∧
    generateEditSuggestions true (some ⟨"image/png", "QUFBQQ==", "data:image/png;base64,QUFBQQ=="⟩)
      .thrown (fun _ => .thrown) = .ok [] := by
  constructor
  · exact ((generateEditSuggestions_never_fails none .thrown (fun _ => .thrown)).2.1 rfl).1
  · exact (generateEditSuggestions_never_fails
      (some ⟨"image/png", "QUFBQQ==", "data:image/png;base64,QUFBQQ=="⟩)
      .thrown (fun _ => .thrown)).2.2.2 _ rfl (Or.inl rfl)

/-! ## Paint history -/

theorem onPaintEnd_at_end {hist : List String} {step : Nat} (u : String)
    (h : step + 1 = hist.length) :
    onPaintEnd ⟨hist, step⟩ u = ⟨hist ++ [u], hist.length⟩ := by
  simp [onPaintEnd, h, List.take_length]

theorem commitStrokes_from_end :
    ∀ (urls : List String) (hist : List String) (step : Nat),
      step + 1 = hist.length →
      commitStrokes ⟨hist, step⟩ urls =
        ⟨hist ++ urls, hist.length + urls.length - 1⟩ := by
  intro urls
  induction urls with
  | nil =>
    intro hist step h
    simp only [commitStrokes, List.foldl_nil, List.append_nil, List.length_nil]
    rw [PaintState.mk.injEq]
    exact ⟨rfl, by omega⟩
  | cons u rest ih =>
    intro hist step h
    have hstep : commitStrokes ⟨hist, step⟩ (u :: rest) =
        commitStrokes (onPaintEnd ⟨hist, step⟩ u) rest := rfl
    rw [hstep, onPaintEnd_at_end u h,
        ih (hist ++ [u]) hist.length (by simp)]
    rw [PaintState.mk.injEq]
    constructor
    · simp
    · simp only [List.length_append, List.length_cons, List.length_nil]
      omega

theorem undo_iterate :
    ∀ (k : Nat) (hist : List String) (step : Nat), k ≤ step →
      undoPaint^[k] (⟨hist, step⟩ : PaintState) = ⟨hist, step - k⟩ := by
  intro k
  induction k with
  | zero => intro hist step _; simp
  | succ k ih =>
    intro hist step hk
    rw [Function.iterate_succ_apply]
    have h1 : undoPaint ⟨hist, step⟩ = ⟨hist, step - 1⟩ := by
      simp [undoPaint]
      omega
    rw [h1, ih hist (step - 1) (by omega)]
    rw [PaintState.mk.injEq]
    exact ⟨rfl, by omega⟩

theorem redo_iterate :
    ∀ (k : Nat) (hist : List String) (step : Nat), step + k < hist.length →
      redoPaint^[k] (⟨hist, step⟩ : PaintState) = ⟨hist, step + k⟩ := by
  intro k
  induction k with
  | zero => intro hist step _; simp
  | succ k ih =>
    intro hist step hk
    rw [Function.iterate_succ_apply]
    have h1 : redoPaint ⟨hist, step⟩ = ⟨hist, step + 1⟩ := by
      have hc : (step : Int) < (hist.length : Int) - 1 := by
        omega
      simp only [redoPaint] at hc ⊢
      rw [if_pos hc]
    rw [h1, ih hist (step + 1) (by omega)]
    rw [PaintState.mk.injEq]
    exact ⟨rfl, by omega⟩

/-- C4: seed a paint session with one snapshot (`startPainting` on an empty
history) and commit `N = urls.length` strokes: the history is the seed
followed by the commits with the pointer on the last entry; `undo` called `N`
times puts the pointer on the seed snapshot; from there `redo` called `N`
times restores exactly the final state; and after `M ≤ N` undos a new commit
truncates the `M` redo-able entries: the new history is the first
`historyStep + 1` entries plus the new snapshot — length `(historyStep + 1) +
1` — with the pointer on the new last entry. -/
theorem paint_history_undo_redo (u0 : String) (urls : List String) (M : Nat)
    (sN : PaintState)
    (hs : sN = commitStrokes (startPainting u0 emptyPaintState) urls)
    (hM : M ≤ urls.length) :
    sN = ⟨u0 :: urls, urls.length⟩ ∧
    undoPaint^[urls.length] sN = ⟨u0 :: urls, 0⟩ ∧
    currentSnapshot (undoPaint^[urls.length] sN) = some u0 ∧
    redoPaint^[urls.length] (undoPaint^[urls.length] sN) = sN ∧
    (∀ u', onPaintEnd (undoPaint^[M] sN) u' =
        ⟨(undoPaint^[M] sN).paintHistory.take ((undoPaint^[M] sN).historyStep + 1) ++ [u'],
         (undoPaint^[M] sN).historyStep + 1⟩ ∧
      (onPaintEnd (undoPaint^[M] sN) u').paintHistory.length =
        ((undoPaint^[M] sN).historyStep + 1) + 1 ∧
      (onPaintEnd (undoPaint^[M] sN) u').historyStep =
        (onPaintEnd (undoPaint^[M] sN) u').paintHistory.length - 1) := by
  have hsN : sN = ⟨u0 :: urls, urls.length⟩ := by
    rw [hs]
    show commitStrokes ⟨[u0], 0⟩ urls = _
    rw [commitStrokes_from_end urls [u0] 0 (by simp)]
    simp
  subst hsN
  have hundoN : undoPaint^[urls.length] (⟨u0 :: urls, urls.length⟩ : PaintState) =
      ⟨u0 :: urls, 0⟩ := by
    rw [undo_iterate urls.length (u0 :: urls) urls.length le_rfl]
    simp
  have hundoM : undoPaint^[M] (⟨u0 :: urls, urls.length⟩ : PaintState) =
      ⟨u0 :: urls, urls.length - M⟩ :=
    undo_iterate M (u0 :: urls) urls.length hM
  refine ⟨rfl, hundoN, ?_, ?_, ?_⟩
  · rw [hundoN]
    simp [currentSnapshot]
  · rw [hundoN, redo_iterate urls.length (u0 :: urls) 0 (by simp)]
    rw [PaintState.mk.injEq]
    exact ⟨rfl, by omega⟩
  · intro u'
    rw [hundoM]
    have hlen : ((u0 :: urls).take (urls.length - M + 1)).length =
        urls.length - M + 1 := by
      simp only [List.length_take, List.length_cons]
      omega
    refine ⟨?_, ?_, ?_⟩
    · simp only [onPaintEnd]
      rw [PaintState.mk.injEq]
      constructor
      · rfl
      · simp only [List.length_append, hlen, List.length_cons, List.length_nil]
        omega
    · simp only [onPaintEnd, List.length_append, hlen, List.length_cons, List.length_nil]
    · simp only [onPaintEnd]

theorem paint_history_undo_redo_witness :
    undoPaint^[2] (commitStrokes (startPainting "seed" emptyPaintState) ["s1", "s2"]) =
      ⟨["seed", "s1", "s2"], 0⟩ ∧
    currentSnapshot
      (undoPaint^[2] (commitStrokes (startPainting "seed" emptyPaintState) ["s1", "s2"])) =
      some "seed" ∧
    redoPaint^[2] (undoPaint^[2]
      (commitStrokes (startPainting "seed" emptyPaintState) ["s1", "s2"])) =
      commitStrokes (startPainting "seed" emptyPaintState) ["s1", "s2"] := by
  have h := paint_history_undo_redo "seed" ["s1", "s2"] 1
    (commitStrokes (startPainting "seed" emptyPaintState) ["s1", "s2"]) rfl
    (by decide)
  exact ⟨h.2.1, h.2.2.1, h.2.2.2.1⟩

/-- The PaintSession invariant: whenever the history is non-empty the pointer
is a valid index, `historyStep < paintHistory.length` (the lower bound
`0 ≤ historyStep` is carried by the `Nat` type: every write of `historyStep`
in the source is non-negative). -/
def paintInv (s : PaintState) : Prop :=
  s.paintHistory ≠ [] → s.historyStep < s.paintHistory.length

/-- C5: `paintInv` is preserved by every history operation: session-start
seeding, stroke commit, undo (no-op at the earliest entry), redo (no-op at
the latest entry), and the session clearing done by save and cancel; it also
holds of the initial empty state. -/
theorem paint_invariant_preserved (s : PaintState) (u : String)
    (hinv : paintInv s) :
    paintInv (startPainting u s) ∧
    paintInv (onPaintEnd s u) ∧
    paintInv (undoPaint s) ∧
    paintInv (redoPaint s) ∧
    paintInv (clearPaintSession s) ∧
    paintInv emptyPaintState := by
  refine ⟨?_, ?_, ?_, ?_, ?_, ?_⟩
  · unfold startPainting paintInv
    split
    · intro _
      simp
    · exact hinv
  · unfold onPaintEnd paintInv
    intro _
    simp
  · unfold undoPaint paintInv
    split
    · rename_i hpos
      intro h
      have := hinv h
      simp only
      omega
    · exact hinv
  · unfold redoPaint paintInv
    split
    · rename_i hcond
      intro _
      simp only
      omega
    · exact hinv
  · intro h
    exact absurd rfl h
  · intro h
    exact absurd rfl h

theorem paint_invariant_preserved_witness :
    paintInv (onPaintEnd ⟨["a"], 0⟩ "b") ∧ paintInv (undoPaint ⟨["a"], 0⟩) ∧
    paintInv (redoPaint ⟨["a"], 0⟩) :=
  ⟨(paint_invariant_preserved ⟨["a"], 0⟩ "b" (by intro _; decide)).2.1,
   (paint_invariant_preserved ⟨["a"], 0⟩ "b" (by intro _; decide)).2.2.1,
   (paint_invariant_preserved ⟨["a"], 0⟩ "b" (by intro _; decide)).2.2.2.1⟩

/-- C6: for positive source and target dimensions, writing `d` for the
rectangle `resizeImage` draws onto the white-filled target canvas
`[0, targetWidth] × [0, targetHeight]`:
* `cover` with source aspect ≠ target aspect scales uniformly
  (`drawWidth/drawHeight` equals the source aspect, stated multiplicatively),
  centers the image, and the drawn rectangle contains the whole canvas on
  both axes — no background is visible;
* `contain` scales uniformly, centers, keeps the whole drawn rectangle
  inside the canvas (the full source is shown), spans the canvas exactly on
  at least one axis — the white background fill is confined to the bands of
  the remaining axis — and when the aspects differ that remaining axis has a
  strictly smaller extent, so background is actually visible;
* `stretch` draws to exactly the target rectangle for every source size,
  ignoring the source aspect ratio entirely. -/
theorem resizeImage_fit_modes (imgWidth imgHeight targetWidth targetHeight : ℚ)
    (hiw : 0 < imgWidth) (hih : 0 < imgHeight)
    (htw : 0 < targetWidth) (hth : 0 < targetHeight) :
    (imgWidth / imgHeight ≠ targetWidth / targetHeight →
      (resizeImage imgWidth imgHeight targetWidth targetHeight .cover).offsetX ≤ 0 ∧
      (resizeImage imgWidth imgHeight targetWidth targetHeight .cover).offsetY ≤ 0 ∧
      targetWidth ≤ (resizeImage imgWidth imgHeight targetWidth targetHeight .cover).offsetX +
        (resizeImage imgWidth imgHeight targetWidth targetHeight .cover).drawWidth ∧
      targetHeight ≤ (resizeImage imgWidth imgHeight targetWidth targetHeight .cover).offsetY +
        (resizeImage imgWidth imgHeight targetWidth targetHeight .cover).drawHeight ∧
      (resizeImage imgWidth imgHeight targetWidth targetHeight .cover).offsetX =
        (targetWidth - (resizeImage imgWidth imgHeight targetWidth targetHeight .cover).drawWidth) / 2 ∧
      (resizeImage imgWidth imgHeight targetWidth targetHeight .cover).offsetY =
        (targetHeight - (resizeImage imgWidth imgHeight targetWidth targetHeight .cover).drawHeight) / 2 ∧
      (resizeImage imgWidth imgHeight targetWidth targetHeight .cover).drawWidth * imgHeight =
        (resizeImage imgWidth imgHeight targetWidth targetHeight .cover).drawHeight * imgWidth) ∧
    (0 ≤ (resizeImage imgWidth imgHeight targetWidth targetHeight .contain).offsetX ∧
      0 ≤ (resizeImage imgWidth imgHeight targetWidth targetHeight .contain).offsetY ∧
      (resizeImage imgWidth imgHeight targetWidth targetHeight .contain).offsetX +
        (resizeImage imgWidth imgHeight targetWidth targetHeight .contain).drawWidth ≤ targetWidth ∧
      (resizeImage imgWidth imgHeight targetWidth targetHeight .contain).offsetY +
        (resizeImage imgWidth imgHeight targetWidth targetHeight .contain).drawHeight ≤ targetHeight ∧
      (resizeImage imgWidth imgHeight targetWidth targetHeight .contain).offsetX =
        (targetWidth - (resizeImage imgWidth imgHeight targetWidth targetHeight .contain).drawWidth) / 2 ∧
      (resizeImage imgWidth imgHeight targetWidth targetHeight .contain).offsetY =
        (targetHeight - (resizeImage imgWidth imgHeight targetWidth targetHeight .contain).drawHeight) / 2 ∧
      (resizeImage imgWidth imgHeight targetWidth targetHeight .contain).drawWidth * imgHeight =
        (resizeImage imgWidth imgHeight targetWidth targetHeight .contain).drawHeight * imgWidth ∧
      ((resizeImage imgWidth imgHeight targetWidth targetHeight .contain).drawWidth = targetWidth ∨
       (resizeImage imgWidth imgHeight targetWidth targetHeight .contain).drawHeight = targetHeight) ∧
      (imgWidth / imgHeight ≠ targetWidth / targetHeight →
        (resizeImage imgWidth imgHeight targetWidth targetHeight .contain).drawWidth < targetWidth ∨
        (resizeImage imgWidth imgHeight targetWidth targetHeight .contain).drawHeight < targetHeight)) ∧
    (resizeImage imgWidth imgHeight targetWidth targetHeight .stretch =
      ⟨0, 0, targetWidth, targetHeight⟩) := by
  have hq0 : 0 < imgWidth / imgHeight := div_pos hiw hih
  have E1 : imgWidth / imgHeight * imgHeight = imgWidth :=
    div_mul_cancel₀ _ (ne_of_gt hih)
  have E2 : targetWidth / targetHeight * targetHeight = targetWidth :=
    div_mul_cancel₀ _ (ne_of_gt hth)
  have E3 : targetWidth / (imgWidth / imgHeight) * (imgWidth / imgHeight) = targetWidth :=
    div_mul_cancel₀ _ (ne_of_gt hq0)
  refine ⟨?_, ?_, rfl⟩
  · intro hne
    by_cases hA : imgWidth / imgHeight > targetWidth / targetHeight
    · have hkey : targetWidth ≤ targetHeight * (imgWidth / imgHeight) := by
        nlinarith [mul_lt_mul_of_pos_right hA hth]
      simp only [resizeImage, if_pos hA]
      refine ⟨by linarith, le_refl 0, by linarith, by linarith, by trivial, by ring, ?_⟩
      rw [mul_assoc, E1]
    · have hA' : imgWidth / imgHeight < targetWidth / targetHeight :=
        lt_of_le_of_ne (not_lt.mp hA) hne
      have hkey : targetHeight * (imgWidth / imgHeight) ≤ targetWidth := by
        nlinarith [mul_lt_mul_of_pos_right hA' hth]
      have hkey2 : targetHeight ≤ targetWidth / (imgWidth / imgHeight) := by
        rw [le_div_iff₀ hq0]
        nlinarith
      simp only [resizeImage, if_neg hA]
      refine ⟨le_refl 0, by linarith, by linarith, by linarith, by ring, by trivial, ?_⟩
      nlinarith [E1, E3]
  · by_cases hA : imgWidth / imgHeight > targetWidth / targetHeight
    · have hkey : targetWidth ≤ targetHeight * (imgWidth / imgHeight) := by
        nlinarith [mul_lt_mul_of_pos_right hA hth]
      have hkey2 : targetWidth / (imgWidth / imgHeight) ≤ targetHeight := by
        rw [div_le_iff₀ hq0]
        nlinarith
      have hkey3 : targetWidth / (imgWidth / imgHeight) < targetHeight := by
        rw [div_lt_iff₀ hq0]
        nlinarith [mul_lt_mul_of_pos_right hA hth]
      simp only [resizeImage, if_pos hA]
      refine ⟨le_refl 0, by linarith, by linarith, by linarith, by ring, by trivial, ?_,
        Or.inl (by trivial), fun _ => Or.inr hkey3⟩
      nlinarith [E1, E3]
    · have hkey : targetHeight * (imgWidth / imgHeight) ≤ targetWidth := by
        rcases lt_or_eq_of_le (not_lt.mp hA) with h | h
        · nlinarith [mul_lt_mul_of_pos_right h hth]
        · nlinarith [h, E2]
      simp only [resizeImage, if_neg hA]
      refine ⟨by linarith, le_refl 0, by linarith, by linarith, by trivial, by ring, ?_,
        Or.inr (by trivial), ?_⟩
      · rw [mul_assoc, E1]
      · intro hne
        have hA' : imgWidth / imgHeight < targetWidth / targetHeight :=
          lt_of_le_of_ne (not_lt.mp hA) hne
        have : targetHeight * (imgWidth / imgHeight) < targetWidth := by
          nlinarith [mul_lt_mul_of_pos_right hA' hth]
        exact Or.inl this

theorem resizeImage_fit_modes_witness :
    (resizeImage 4 3 16 9 .cover).offsetX ≤ 0 ∧
    ((resizeImage 4 3 16 9 .contain).drawWidth = 16 ∨
     (resizeImage 4 3 16 9 .contain).drawHeight = 9) ∧
    resizeImage 4 3 16 9 .stretch = ⟨0, 0, 16, 9⟩ := by
  have h := resizeImage_fit_modes 4 3 16 9 (by norm_num) (by norm_num)
    (by norm_num) (by norm_num)
  exact ⟨(h.1 (by norm_num)).1, h.2.1.2.2.2.2.2.2.2.1, h.2.2⟩

/-! ## Data-URL reconstruction -/

theorem listIsPrefix_append :
    ∀ (a b : List Char), listIsPrefix a b = true → b = a ++ b.drop a.length := by
  intro a
  induction a with
  | nil => intro b _; simp
  | cons x xs ih =>
    intro b h
    cases b with
    | nil => simp [listIsPrefix] at h
    | cons y ys =>
      simp only [listIsPrefix, Bool.and_eq_true, beq_iff_eq] at h
      obtain ⟨hxy, hrest⟩ := h
      subst hxy
      simpa using ih ys hrest

theorem splitBase64Marker_eq :
    ∀ (l pre suf : List Char), splitBase64Marker l = some (pre, suf) →
      l = pre ++ ";base64,".data ++ suf := by
  intro l
  induction l with
  | nil =>
    intro pre suf h
    simp [splitBase64Marker] at h
  | cons c rest ih =>
    intro pre suf h
    rw [splitBase64Marker] at h
    cases hrec : splitBase64Marker rest with
    | some pr =>
      rw [hrec] at h
      obtain ⟨pre1, suf1⟩ := pr
      simp only [Option.some.injEq, Prod.mk.injEq] at h
      obtain ⟨hp, hs⟩ := h
      subst hp
      subst hs
      simpa using ih pre1 suf1 hrec
    | none =>
      rw [hrec] at h
      by_cases hcond :
          (listIsPrefix ";base64,".data (c :: rest) && rest.drop 7 != []) = true
      · rw [if_pos hcond] at h
        simp only [Option.some.injEq, Prod.mk.injEq] at h
        obtain ⟨hp, hs⟩ := h
        subst hp
        subst hs
        simp only [Bool.and_eq_true] at hcond
        have hpre := listIsPrefix_append ";base64,".data (c :: rest) hcond.1
        simpa using hpre
      · rw [if_neg hcond] at h
        cases h

theorem parseDataUrl_spec (s m d : String) (h : parseDataUrl s = some (m, d)) :
    s = "data:" ++ m ++ ";base64," ++ d := by
  unfold parseDataUrl at h
  split at h
  · rename_i hpre
    cases hsplit : splitBase64Marker (s.data.drop 5) with
    | none => rw [hsplit] at h; cases h
    | some pr =>
      rw [hsplit] at h
      obtain ⟨pre, suf⟩ := pr
      dsimp only at h
      by_cases hcond :
          (!pre.isEmpty && pre.all isDotChar && suf.all isDotChar) = true
      · rw [if_pos hcond] at h
        simp only [Option.some.injEq, Prod.mk.injEq] at h
        obtain ⟨hm, hd⟩ := h
        subst hm
        subst hd
        have h1 := listIsPrefix_append "data:".data s.data hpre
        have h2 := splitBase64Marker_eq (s.data.drop 5) pre suf hsplit
        have h5 : ("data:".data).length = 5 := rfl
        rw [h5] at h1
        apply String.ext
        rw [String.data_append, String.data_append, String.data_append]
        show s.data = "data:".data ++ pre ++ ";base64,".data ++ suf
        calc s.data = "data:".data ++ s.data.drop 5 := h1
          _ = "data:".data ++ (pre ++ ";base64,".data ++ suf) := by rw [h2]
          _ = "data:".data ++ pre ++ ";base64,".data ++ suf := by
              simp [List.append_assoc]
      · rw [if_neg hcond] at h
        cases h
  · cases h

/-- C10: every `ImageData` the program constructs — by
`generateSingleRequest` (via `imageFromInline`), by `fileToImageData`, and by
`getCroppedImg` — satisfies the consistency invariant
`url = "data:" ++ mimeType ++ ";base64," ++ data`; for the two regex-based
constructors the `url` is moreover exactly the input string, and
`generateSingleRequest` defaults the media type to `"image/png"` when the
upstream part omits it (or declares the empty string, which JavaScript `||`
also replaces). -/
theorem imageData_url_invariant :
    (∀ resp img, generateSingleRequest resp = .ok img →
      img.url = "data:" ++ img.mimeType ++ ";base64," ++ img.data) ∧
    (∀ inline, inline.mimeType = none ∨ inline.mimeType = some "" →
      (imageFromInline inline).mimeType = "image/png") ∧
    (∀ s img, fileToImageData s = .ok img →
      img.url = "data:" ++ img.mimeType ++ ";base64," ++ img.data ∧ img.url = s) ∧
    (∀ s img, getCroppedImg s = .ok img →
      img.url = "data:" ++ img.mimeType ++ ";base64," ++ img.data ∧ img.url = s) := by
  refine ⟨?_, ?_, ?_, ?_⟩
  · intro resp img h
    unfold generateSingleRequest at h
    repeat' split at h
    all_goals cases h
    rfl
  · rintro inline (h | h) <;> simp [imageFromInline, h]
  · intro s img h
    unfold fileToImageData at h
    split at h
    · rename_i m d hparse
      cases h
      exact ⟨(parseDataUrl_spec s m d hparse).symm ▸ rfl, rfl⟩
    · cases h
  · intro s img h
    unfold getCroppedImg at h
    split at h
    · rename_i m d hparse
      cases h
      exact ⟨(parseDataUrl_spec s m d hparse).symm ▸ rfl, rfl⟩
    · cases h

theorem imageData_url_invariant_witness :
    (⟨"image/png", "QUFBQQ==", "data:image/png;base64,QUFBQQ=="⟩ : ImageData).url =
      "data:" ++ ("image/png" : String) ++ ";base64," ++ "QUFBQQ==" ∧
    (⟨"image/png", "QUFBQQ==", "data:image/png;base64,QUFBQQ=="⟩ : ImageData).url =
      "data:image/png;base64,QUFBQQ==" := by
  exact (imageData_url_invariant).2.2.1 "data:image/png;base64,QUFBQQ=="
    ⟨"image/png", "QUFBQQ==", "data:image/png;base64,QUFBQQ=="⟩ (by rfl)
